import Mathlib

/-!
Shallow embedding of src/native/audio-capture.cpp (process-exclusive WASAPI
loopback capture, `wmain`).  Platform calls (COM activation, WASAPI methods,
the CRT `_write`) are modelled by results supplied in an environment record
`Env`; the control flow of `wmain` and its capture loop is translated branch
by branch into `wmain`, `captureLoop`, `drain` and `silentGo`.  Observable
actions (stdout writes, GetBuffer, ReleaseBuffer, Initialize, Start, Stop)
are recorded as an event trace.  Line numbers in the doc comments refer to
src/native/audio-capture.cpp.
-/

namespace AudioCapture

/-- An HRESULT is a signed 32-bit status value; the FAILED macro tests
`hr < 0`.  Modelled as `Int`. -/
abbrev HRESULT := Int

/-- `E_NOTIMPL` = 0x80004001 read as a signed 32-bit value. -/
def E_NOTIMPL : HRESULT := -2147467263

/-- `E_FAIL` = 0x80004005 read as a signed 32-bit value. -/
def E_FAIL : HRESULT := -2147467259

/-- `AUDCLNT_S_BUFFER_EMPTY` = 0x08890001, a positive (success) status
returned by `GetBuffer` when no packet is queued (audioclient.h). -/
def AUDCLNT_S_BUFFER_EMPTY : HRESULT := 143196161

/-- `WAVE_FORMAT_EXTENSIBLE` = 0xFFFE (mmreg.h). -/
def WAVE_FORMAT_EXTENSIBLE : Nat := 65534

/-- WAVEFORMATEX (mmreg.h); field values are the unsigned integers stored in
the struct's u16/u32 fields. -/
structure WAVEFORMATEX where
  wFormatTag : Nat
  nChannels : Nat
  nSamplesPerSec : Nat
  nAvgBytesPerSec : Nat
  nBlockAlign : Nat
  wBitsPerSample : Nat
  cbSize : Nat
deriving DecidableEq

/-- A GUID; `Data1` is its first 32-bit field (the one the source reads at
line 318). -/
structure GUID where
  Data1 : Nat
  Data2 : Nat
  Data3 : Nat
  Data4 : List Nat
deriving DecidableEq

/-- WAVEFORMATEXTENSIBLE.  `GetMixFormat` returns a `WAVEFORMATEX*` that the
source reinterprets as this larger struct when `wFormatTag` is
`WAVE_FORMAT_EXTENSIBLE` (line 317); the model therefore always carries the
extension fields, which the program reads only in that case. -/
structure WAVEFORMATEXTENSIBLE where
  Format : WAVEFORMATEX
  wValidBitsPerSample : Nat
  dwChannelMask : Nat
  SubFormat : GUID
deriving DecidableEq

/-- KSDATAFORMAT_SUBTYPE_IEEE_FLOAT, defined locally in the source
(lines 292-293). -/
def KSDATAFORMAT_SUBTYPE_IEEE_FLOAT_LOCAL : GUID :=
  { Data1 := 3, Data2 := 0, Data3 := 16
    Data4 := [128, 0, 0, 170, 0, 56, 155, 113] }

/-- The fallback format built at lines 285-304: 48 kHz stereo 32-bit IEEE
float in extensible form, channel mask FRONT_LEFT|FRONT_RIGHT.
`nBlockAlign` and `nAvgBytesPerSec` are computed exactly as in the source. -/
def fallbackFmt : WAVEFORMATEXTENSIBLE :=
  { Format :=
      { wFormatTag := WAVE_FORMAT_EXTENSIBLE
        nChannels := 2
        nSamplesPerSec := 48000
        wBitsPerSample := 32
        nBlockAlign := 2 * (32 / 8)
        nAvgBytesPerSec := 48000 * (2 * (32 / 8))
        cbSize := 22 }
    wValidBitsPerSample := 32
    dwChannelMask := 3
    SubFormat := KSDATAFORMAT_SUBTYPE_IEEE_FLOAT_LOCAL }

/-- The four values `wmain` extracts for the stream header. -/
structure Fmt where
  sampleRate : Nat
  channels : Nat
  bitsPerSample : Nat
  formatTag : Nat
deriving DecidableEq

/-- Lines 310-320: read sampleRate/channels/bits/tag from the wave format,
then, if the tag is `WAVE_FORMAT_EXTENSIBLE`, unwrap `formatTag` from
`SubFormat.Data1` and `bitsPerSample` from `wValidBitsPerSample`. -/
def extractFmt (w : WAVEFORMATEXTENSIBLE) : Fmt :=
  if w.Format.wFormatTag = WAVE_FORMAT_EXTENSIBLE then
    { sampleRate := w.Format.nSamplesPerSec
      channels := w.Format.nChannels
      bitsPerSample := w.wValidBitsPerSample
      formatTag := w.SubFormat.Data1 }
  else
    { sampleRate := w.Format.nSamplesPerSec
      channels := w.Format.nChannels
      bitsPerSample := w.Format.wBitsPerSample
      formatTag := w.Format.wFormatTag }

/-- Little-endian bytes of a u16 struct field. -/
def u16le (n : Nat) : List Nat := [n % 256, n / 256 % 256]

/-- Little-endian bytes of a u32 struct field. -/
def u32le (n : Nat) : List Nat :=
  [n % 256, n / 256 % 256, n / 65536 % 256, n / 16777216 % 256]

/-- The 12 bytes of the packed `AudioHeader` struct (lines 195-202):
sampleRate u32, channels u16, bitsPerSample u16, formatTag u32,
all little-endian (x86). -/
def headerBytes (f : Fmt) : List Nat :=
  u32le f.sampleRate ++ u16le f.channels ++ u16le f.bitsPerSample ++ u32le f.formatTag

/-- Kind of a stdout write: the 12-byte header, a direct PCM-data write
(line 438), or one zero-filled chunk of the silent path (line 432). -/
inductive WKind where
  | header
  | data
  | silent
deriving DecidableEq

/-- Observable events of a run.  `write kind len bytes result` records one
`_write(1, ...)` call with its requested byte count, the bytes at the source
pointer, and the value `_write` returned. -/
inductive Ev where
  | getBuffer (hr : HRESULT) (frames : Nat) (silent : Bool)
  | releaseBuffer (frames : Nat)
  | write (kind : WKind) (len : Nat) (bytes : List Nat) (result : Int)
  | initCall (hr : HRESULT)
  | start
  | stop
deriving DecidableEq

/-- One packet as returned by `GetBuffer`: its HRESULT, frame count, the
`AUDCLNT_BUFFERFLAGS_SILENT` flag, the bytes behind the data pointer, and
an oracle `wres` giving the return value of the n-th `_write` call made
while handling this packet (the non-silent path makes one call, index 0;
the silent path makes one call per chunk). -/
structure Packet where
  hr : HRESULT
  frames : Nat
  silent : Bool
  data : List Nat
  wres : Nat → Int

/-- The silent-path chunk loop, lines 428-435:

    UINT32 remaining = byteCount;
    while (remaining > 0 && g_running) {
        UINT32 chunk = remaining > sizeof(zeros) ? sizeof(zeros) : remaining;
        int w = _write(1, zeros, chunk);
        if (w <= 0) { g_running = FALSE; break; }
        remaining -= chunk;
    }

`Z` is `sizeof(zeros)` (8192 in the source), `running` is `g_running`, and
`i` numbers the write calls.  The extra `fuel` argument only bounds the
iteration count for Lean's termination checker: when `0 < Z` every
iteration removes at least one byte from `remaining`, so calling with
`fuel = remaining` (as `silentWrites` does) never exhausts it.
Returns the write events and the final value of `g_running`. -/
def silentGo (Z : Nat) (wres : Nat → Int) :
    Nat → Nat → Nat → Bool → List Ev × Bool
  | 0, _, _, running => ([], running)
  | fuel + 1, i, remaining, running =>
    if remaining = 0 ∨ running = false then ([], running)
    else
      let chunk := min remaining Z
      let w := wres i
      if w ≤ 0 then ([Ev.write WKind.silent chunk (List.replicate chunk 0) w], false)
      else
        let rest := silentGo Z wres fuel (i + 1) (remaining - chunk) running
        (Ev.write WKind.silent chunk (List.replicate chunk 0) w :: rest.1, rest.2)

/-- The silent-path loop entered with `remaining = byteCount`. -/
def silentWrites (Z : Nat) (wres : Nat → Int) (i remaining : Nat) (running : Bool) :
    List Ev × Bool :=
  silentGo Z wres remaining i remaining running

/-- The inner drain loop, lines 412-446: repeatedly `GetBuffer`; stop on
`AUDCLNT_S_BUFFER_EMPTY` or failure; on a zero-frame packet release it and
stop; otherwise write the packet (zero chunks if flagged silent, one direct
write otherwise — a write result ≤ 0 clears `g_running`), then release the
buffer and continue.  The environment supplies the queued packets; when the
list is exhausted the next `GetBuffer` reports `AUDCLNT_S_BUFFER_EMPTY`.
`fs` is `frameSize`, `Z` is `sizeof(zeros)`.  Returns the events and the
final value of `g_running`. -/
def drain (fs Z : Nat) : List Packet → Bool → List Ev × Bool
  | [], running => ([Ev.getBuffer AUDCLNT_S_BUFFER_EMPTY 0 false], running)
  | p :: rest, running =>
    if p.hr = AUDCLNT_S_BUFFER_EMPTY ∨ p.hr < 0 then
      ([Ev.getBuffer p.hr p.frames p.silent], running)
    else if p.frames = 0 then
      ([Ev.getBuffer p.hr p.frames p.silent, Ev.releaseBuffer p.frames], running)
    else
      let byteCount := p.frames * fs
      let wr : List Ev × Bool :=
        if p.silent then silentWrites Z p.wres 0 byteCount running
        else
          let w := p.wres 0
          ([Ev.write WKind.data byteCount p.data w], if w ≤ 0 then false else running)
      let rest' := drain fs Z rest wr.2
      (Ev.getBuffer p.hr p.frames p.silent :: (wr.1 ++ Ev.releaseBuffer p.frames :: rest'.1),
       rest'.2)

/-- One iteration of the outer `while (g_running)` loop (lines 407-449):
`ctrl` says whether the console-control handler (line 185) cleared
`g_running` before this iteration's check, `signaled` whether
`WaitForSingleObject(captureEvent, 100)` returned `WAIT_OBJECT_0`, and
`packets` the packets queued for this event cycle. -/
structure Cycle where
  ctrl : Bool
  signaled : Bool
  packets : List Packet

/-- The outer capture loop, lines 407-449.  A `WAIT_TIMEOUT` cycle moves no
data; a signaled cycle runs `drain`.  Returns the events and the final
value of `g_running` (`true` means the loop is still running when the
supplied cycles end, i.e. the process has not terminated yet). -/
def captureLoop (fs Z : Nat) : List Cycle → Bool → List Ev × Bool
  | [], running => ([], running)
  | c :: rest, running =>
    let running1 := if c.ctrl then false else running
    if running1 = false then ([], false)
    else if c.signaled then
      let d := drain fs Z c.packets running1
      let r := captureLoop fs Z rest d.2
      (d.1 ++ r.1, r.2)
    else
      captureLoop fs Z rest running1

/-- Environment of one run: the command line and the results of every
platform call `wmain` makes, in program order. -/
structure Env where
  argc : Nat
  arg1 : List Char
  hrCoInit : HRESULT
  hrActivateAsync : HRESULT
  hrActivate : HRESULT
  gotActivated : Bool
  hrQI : HRESULT
  hrMix : HRESULT
  mixFmt : WAVEFORMATEXTENSIBLE
  hrInit : HRESULT
  hrSetEvent : HRESULT
  hrGetService : HRESULT
  headerW : Int
  hrStart : HRESULT
  cycles : List Cycle

/-- Lines 279-308: the wave format actually used — `GetMixFormat`'s result
on success, the fallback whenever `FAILED(hr)` (the source tests
`FAILED(hr)`, not `hr == E_NOTIMPL`). -/
def resolvedWave (e : Env) : WAVEFORMATEXTENSIBLE :=
  if e.hrMix < 0 then fallbackFmt else e.mixFmt

/-- The `usingFallback` flag of line 286/307. -/
def usingFallback (e : Env) : Bool := decide (e.hrMix < 0)

/-- The header fields extracted at lines 310-320 from the resolved format. -/
def resolvedFmt (e : Env) : Fmt := extractFmt (resolvedWave e)

/-- Line 322: `frameSize = channels * (bitsPerSample / 8)` (after
unwrapping). -/
def frameSize (e : Env) : Nat :=
  (resolvedFmt e).channels * ((resolvedFmt e).bitsPerSample / 8)

/-- Outcome of a run: exit code (`none` when the supplied cycles end with
`g_running` still set, i.e. the loop has not terminated), the event trace,
and whether the usage message of line 210 was printed. -/
structure RunOut where
  exitCode : Option Nat
  events : List Ev
  usageMsg : Bool
deriving DecidableEq

/-- The three events every run that reaches the capture loop has emitted
first: `Initialize` (line 333), the header write (line 382), `Start`
(line 392). -/
def preLoopEvents (e : Env) : List Ev :=
  [Ev.initCall e.hrInit,
   Ev.write WKind.header 12 (headerBytes (resolvedFmt e)) e.headerW,
   Ev.start]

/-- `wmain`, lines 208-459, branch by branch:
argc check (209), CoInitializeEx (224), ActivateAudioInterfaceAsync (246),
the completion handler's Wait plus the IAudioClient check (265-273, failure
when `FAILED(m_hrActivate)`, `m_pActivated` null, or the QueryInterface
fails), format resolution (279-322), Initialize (333), SetEventHandle
(353), GetService (363), the 12-byte header write with its `!= 12` check
(382), Start (392), the capture loop (407-449) with `sizeof(zeros) = 8192`,
and cleanup with exit code 0 (451-459).  Every `FAILED` branch returns
exit code 1. -/
def wmain (e : Env) : RunOut :=
  if e.argc < 2 then ⟨some 1, [], true⟩
  else if e.hrCoInit < 0 then ⟨some 1, [], false⟩
  else if e.hrActivateAsync < 0 then ⟨some 1, [], false⟩
  else if e.hrActivate < 0 ∨ e.gotActivated = false then ⟨some 1, [], false⟩
  else if e.hrQI < 0 then ⟨some 1, [], false⟩
  else if e.hrInit < 0 then ⟨some 1, [Ev.initCall e.hrInit], false⟩
  else if e.hrSetEvent < 0 then ⟨some 1, [Ev.initCall e.hrInit], false⟩
  else if e.hrGetService < 0 then ⟨some 1, [Ev.initCall e.hrInit], false⟩
  else if e.headerW ≠ 12 then
    ⟨some 1,
     [Ev.initCall e.hrInit,
      Ev.write WKind.header 12 (headerBytes (resolvedFmt e)) e.headerW],
     false⟩
  else if e.hrStart < 0 then ⟨some 1, preLoopEvents e, false⟩
  else if (captureLoop (frameSize e) 8192 e.cycles true).2 = true then
    ⟨none, preLoopEvents e ++ (captureLoop (frameSize e) 8192 e.cycles true).1, false⟩
  else
    ⟨some 0,
     preLoopEvents e ++ (captureLoop (frameSize e) 8192 e.cycles true).1 ++ [Ev.stop],
     false⟩

/-- Model of the CRT conversion `_wtoi` used at line 214: skip leading
whitespace, accept one optional sign, then consume leading decimal digits;
a string with no leading digits converts to 0.  (Overflow clamping is not
modelled; no claim depends on it.) -/
def isDigit (c : Char) : Bool := decide ('0' ≤ c) && decide (c ≤ '9')

/-- Whitespace characters `_wtoi` skips. -/
def isSpaceW (c : Char) : Bool :=
  decide (c = ' ') || decide (c = '\t') || decide (c = '\n') ||
  decide (c = '\r') || decide (c = '\x0b') || decide (c = '\x0c')

/-- Drop leading whitespace. -/
def skipSpaces : List Char → List Char
  | [] => []
  | c :: cs => if isSpaceW c then skipSpaces cs else c :: cs

/-- Accumulate the value of leading decimal digits. -/
def digitsAcc : List Char → Nat → Nat
  | [], acc => acc
  | c :: cs, acc => if isDigit c then digitsAcc cs (acc * 10 + (c.toNat - 48)) else acc

/-- `_wtoi` on the argument string. -/
def wtoi (s : List Char) : Int :=
  match skipSpaces s with
  | [] => 0
  | c :: cs =>
    if c = '-' then -(digitsAcc cs 0 : Int)
    else if c = '+' then (digitsAcc cs 0 : Int)
    else (digitsAcc (c :: cs) 0 : Int)

/-- Line 214: `DWORD excludePid = static_cast<DWORD>(_wtoi(argv[1]))` —
the signed result reduced mod 2^32. -/
def excludePid (e : Env) : Nat := ((wtoi e.arg1) % 4294967296).toNat

/-- Whether the string has leading digits in the sense of `_wtoi` (after
whitespace and an optional sign); when it does not, `_wtoi` returns 0. -/
def hasLeadingNumber (s : List Char) : Bool :=
  match skipSpaces s with
  | [] => false
  | c :: cs =>
    if c = '-' ∨ c = '+' then
      match cs with
      | [] => false
      | d :: _ => isDigit d
    else isDigit c

/-- Requested length of a write event (0 for other events). -/
def writeLen : Ev → Nat
  | Ev.write _ l _ _ => l
  | _ => 0

/-- Bytes carried by a write event ([] for other events). -/
def writePayload : Ev → List Nat
  | Ev.write _ _ b _ => b
  | _ => []

/-- Sum of requested write lengths over a trace. -/
def writtenTotal : List Ev → Nat
  | [] => 0
  | ev :: rest => writeLen ev + writtenTotal rest

/-- Concatenated write payloads of a trace. -/
def payloadConcat : List Ev → List Nat
  | [] => []
  | ev :: rest => writePayload ev ++ payloadConcat rest

/-- Whether an event is a stdout write. -/
def isWriteEv : Ev → Bool
  | Ev.write _ _ _ _ => true
  | _ => false

/-- `GetBuffer` results the drain loop treats as a successful buffer
acquisition (neither `AUDCLNT_S_BUFFER_EMPTY` nor failed). -/
def acquiredHr (hr : HRESULT) : Bool :=
  if hr = AUDCLNT_S_BUFFER_EMPTY ∨ hr < 0 then false else true

/-- Scan a trace checking the acquire/release discipline: `k` buffers are
currently acquired (the source holds at most one); `none` means a
`ReleaseBuffer` without an acquired buffer or a second acquisition before
release; `some k` the outstanding count at the end. -/
def scanAcqRel : List Ev → Nat → Option Nat
  | [], k => some k
  | ev :: rest, k =>
    match ev with
    | Ev.getBuffer hr _ _ =>
      if acquiredHr hr then
        if k = 0 then scanAcqRel rest 1 else none
      else scanAcqRel rest k
    | Ev.releaseBuffer _ => if k = 1 then scanAcqRel rest 0 else none
    | _ => scanAcqRel rest k

/-- All setup stages through `Start` succeeded (exactly the conditions of
the exit-1 branches of `wmain`; note the mix-format query is absent — its
failure selects the fallback instead of exiting). -/
def startedOk (e : Env) : Prop :=
  2 ≤ e.argc ∧ 0 ≤ e.hrCoInit ∧ 0 ≤ e.hrActivateAsync ∧ 0 ≤ e.hrActivate ∧
  e.gotActivated = true ∧ 0 ≤ e.hrQI ∧ 0 ≤ e.hrInit ∧ 0 ≤ e.hrSetEvent ∧
  0 ≤ e.hrGetService ∧ e.headerW = 12 ∧ 0 ≤ e.hrStart

instance (e : Env) : Decidable (startedOk e) := by
  unfold startedOk
  infer_instance

/-- Setup stages before the format query succeeded (control reaches the
format-resolution code). -/
def preFormatOk (e : Env) : Prop :=
  2 ≤ e.argc ∧ 0 ≤ e.hrCoInit ∧ 0 ≤ e.hrActivateAsync ∧ 0 ≤ e.hrActivate ∧
  e.gotActivated = true ∧ 0 ≤ e.hrQI

instance (e : Env) : Decidable (preFormatOk e) := by
  unfold preFormatOk
  infer_instance

/-! Helper lemmas about the loop embeddings. -/

theorem writtenTotal_append (a b : List Ev) :
    writtenTotal (a ++ b) = writtenTotal a + writtenTotal b := by
  induction a with
  | nil => simp [writtenTotal]
  | cons ev rest ih => simp [writtenTotal, ih]; omega

theorem payloadConcat_append (a b : List Ev) :
    payloadConcat (a ++ b) = payloadConcat a ++ payloadConcat b := by
  induction a with
  | nil => simp [payloadConcat]
  | cons ev rest ih => simp [payloadConcat, ih]

theorem silentGo_mem (Z : Nat) (wres : Nat → Int) (fuel : Nat) :
    ∀ i r b, ∀ ev ∈ (silentGo Z wres fuel i r b).1,
      ∃ l w, ev = Ev.write WKind.silent l (List.replicate l 0) w ∧ l ≤ Z := by
  induction fuel with
  | zero => intro i r b ev h; simp [silentGo] at h
  | succ fuel ih =>
    intro i r b ev h
    simp only [silentGo] at h
    split at h
    · simp at h
    · by_cases hw : wres i ≤ 0
      · simp only [if_pos hw, List.mem_singleton] at h
        exact ⟨min r Z, wres i, h, Nat.min_le_right r Z⟩
      · simp only [if_neg hw, List.mem_cons] at h
        rcases h with h | h
        · exact ⟨min r Z, wres i, h, Nat.min_le_right r Z⟩
        · exact ih _ _ _ ev h

theorem silentGo_success (Z : Nat) (wres : Nat → Int) (hZ : 0 < Z)
    (hw : ∀ j, 0 < wres j) (fuel : Nat) :
    ∀ r i, r ≤ fuel →
      (silentGo Z wres fuel i r true).2 = true ∧
      writtenTotal (silentGo Z wres fuel i r true).1 = r ∧
      payloadConcat (silentGo Z wres fuel i r true).1 = List.replicate r 0 := by
  induction fuel with
  | zero =>
    intro r i hr
    have : r = 0 := Nat.le_zero.mp hr
    subst this
    simp [silentGo, writtenTotal, payloadConcat]
  | succ fuel ih =>
    intro r i hr
    by_cases hr0 : r = 0
    · subst hr0
      simp [silentGo, writtenTotal, payloadConcat]
    · have hcond : ¬(r = 0 ∨ (true : Bool) = false) := by simp [hr0]
      have hwi : ¬(wres i ≤ 0) := not_le.mpr (hw i)
      have hchunk : 0 < min r Z := lt_min_iff.mpr ⟨Nat.pos_of_ne_zero hr0, hZ⟩
      have hle : min r Z ≤ r := Nat.min_le_left r Z
      have hfuel : r - min r Z ≤ fuel := by omega
      obtain ⟨h1, h2, h3⟩ := ih (r - min r Z) (i + 1) hfuel
      simp only [silentGo, if_neg hcond, if_neg hwi]
      refine ⟨h1, ?_, ?_⟩
      · simp only [writtenTotal, writeLen, h2]
        omega
      · simp only [payloadConcat, writePayload, h3]
        rw [← List.replicate_add]
        congr 1
        omega

theorem silentGo_allWrites (Z : Nat) (wres : Nat → Int) (fuel i r : Nat) (b : Bool) :
    ∀ ev ∈ (silentGo Z wres fuel i r b).1, isWriteEv ev = true := by
  intro ev h
  obtain ⟨l, w, rfl, -⟩ := silentGo_mem Z wres fuel i r b ev h
  rfl

theorem scanAcqRel_append (a b : List Ev) (k : Nat) :
    scanAcqRel (a ++ b) k = Option.bind (scanAcqRel a k) (scanAcqRel b) := by
  induction a generalizing k with
  | nil => simp [scanAcqRel]
  | cons ev rest ih =>
    cases ev with
    | getBuffer hr fr s =>
      simp only [List.cons_append, scanAcqRel]
      by_cases h : acquiredHr hr = true
      · by_cases hk : k = 0 <;> simp [h, hk, ih]
      · simp only [Bool.not_eq_true] at h
        simp [h, ih]
    | releaseBuffer fr =>
      simp only [List.cons_append, scanAcqRel]
      by_cases hk : k = 1 <;> simp [hk, ih]
    | write kk l d w => simpa [scanAcqRel] using ih k
    | initCall hr => simpa [scanAcqRel] using ih k
    | start => simpa [scanAcqRel] using ih k
    | stop => simpa [scanAcqRel] using ih k

theorem scanAcqRel_writes (l : List Ev) :
    ∀ k, (∀ ev ∈ l, isWriteEv ev = true) → scanAcqRel l k = some k := by
  induction l with
  | nil => intro k _; simp [scanAcqRel]
  | cons ev rest ih =>
    intro k h
    have hev := h ev (List.mem_cons_self ev rest)
    have hrest : ∀ ev ∈ rest, isWriteEv ev = true := fun x hx => h x (List.mem_cons_of_mem ev hx)
    cases ev with
    | write kk ll d w => simpa [scanAcqRel] using ih k hrest
    | getBuffer hr fr s => simp [isWriteEv] at hev
    | releaseBuffer fr => simp [isWriteEv] at hev
    | initCall hr => simp [isWriteEv] at hev
    | start => simp [isWriteEv] at hev
    | stop => simp [isWriteEv] at hev

theorem silentWrites_mem (Z : Nat) (wres : Nat → Int) (i r : Nat) (b : Bool) :
    ∀ ev ∈ (silentWrites Z wres i r b).1,
      ∃ l w, ev = Ev.write WKind.silent l (List.replicate l 0) w ∧ l ≤ Z :=
  silentGo_mem Z wres r i r b

theorem silentWrites_allWrites (Z : Nat) (wres : Nat → Int) (i r : Nat) (b : Bool) :
    ∀ ev ∈ (silentWrites Z wres i r b).1, isWriteEv ev = true :=
  silentGo_allWrites Z wres r i r b

theorem drain_cons_silent (fs Z : Nat) (p : Packet) (rest : List Packet) (b : Bool)
    (h1 : ¬(p.hr = AUDCLNT_S_BUFFER_EMPTY ∨ p.hr < 0)) (h2 : ¬p.frames = 0)
    (hsil : p.silent = true) :
    drain fs Z (p :: rest) b =
      (Ev.getBuffer p.hr p.frames p.silent ::
         ((silentWrites Z p.wres 0 (p.frames * fs) b).1 ++
           Ev.releaseBuffer p.frames ::
             (drain fs Z rest (silentWrites Z p.wres 0 (p.frames * fs) b).2).1),
       (drain fs Z rest (silentWrites Z p.wres 0 (p.frames * fs) b).2).2) := by
  simp [drain, h1, h2, hsil]

theorem drain_cons_data (fs Z : Nat) (p : Packet) (rest : List Packet) (b : Bool)
    (h1 : ¬(p.hr = AUDCLNT_S_BUFFER_EMPTY ∨ p.hr < 0)) (h2 : ¬p.frames = 0)
    (hsil : p.silent = false) :
    drain fs Z (p :: rest) b =
      (Ev.getBuffer p.hr p.frames p.silent ::
         (Ev.write WKind.data (p.frames * fs) p.data (p.wres 0) ::
           Ev.releaseBuffer p.frames ::
             (drain fs Z rest (if p.wres 0 ≤ 0 then false else b)).1),
       (drain fs Z rest (if p.wres 0 ≤ 0 then false else b)).2) := by
  simp [drain, h1, h2, hsil]

theorem drain_write_mem (fs Z : Nat) (ps : List Packet) :
    ∀ b k l d w, Ev.write k l d w ∈ (drain fs Z ps b).1 →
      (k = WKind.data ∧ ∃ p, p ∈ ps ∧ l = p.frames * fs ∧ d = p.data) ∨
      (k = WKind.silent ∧ l ≤ Z ∧ d = List.replicate l 0) := by
  induction ps with
  | nil => intro b k l d w h; simp [drain] at h
  | cons p rest ih =>
    intro b k l d w h
    by_cases h1 : p.hr = AUDCLNT_S_BUFFER_EMPTY ∨ p.hr < 0
    · simp [drain, h1] at h
    · by_cases h2 : p.frames = 0
      · simp [drain, h1, h2] at h
      · cases hsil : p.silent with
        | true =>
          rw [drain_cons_silent fs Z p rest b h1 h2 hsil] at h
          simp only [List.mem_cons, List.mem_append] at h
          rcases h with h | h | h | h
          · exact Ev.noConfusion h
          · obtain ⟨l', w', heq, hle⟩ := silentWrites_mem Z p.wres 0 (p.frames * fs) b _ h
            rw [Ev.write.injEq] at heq
            obtain ⟨hk, hl, hd, -⟩ := heq
            subst hk
            subst hl
            exact Or.inr ⟨rfl, hle, hd⟩
          · exact Ev.noConfusion h
          · rcases ih _ k l d w h with ⟨hk, p', hp', hrest⟩ | hr
            · exact Or.inl ⟨hk, p', List.mem_cons_of_mem p hp', hrest⟩
            · exact Or.inr hr
        | false =>
          rw [drain_cons_data fs Z p rest b h1 h2 hsil] at h
          simp only [List.mem_cons] at h
          rcases h with h | h | h | h
          · exact Ev.noConfusion h
          · rw [Ev.write.injEq] at h
            obtain ⟨hk, hl, hd, -⟩ := h
            exact Or.inl ⟨hk, p, List.mem_cons_self p rest, hl, hd⟩
          · exact Ev.noConfusion h
          · rcases ih _ k l d w h with ⟨hk, p', hp', hrest⟩ | hr
            · exact Or.inl ⟨hk, p', List.mem_cons_of_mem p hp', hrest⟩
            · exact Or.inr hr

theorem drain_scan (fs Z : Nat) (ps : List Packet) :
    ∀ b, scanAcqRel (drain fs Z ps b).1 0 = some 0 := by
  induction ps with
  | nil => intro b; simp [drain, scanAcqRel, acquiredHr]
  | cons p rest ih =>
    intro b
    by_cases h1 : p.hr = AUDCLNT_S_BUFFER_EMPTY ∨ p.hr < 0
    · simp [drain, h1, scanAcqRel, acquiredHr]
    · by_cases h2 : p.frames = 0
      · simp [drain, h1, h2, scanAcqRel, acquiredHr]
      · have hacq : acquiredHr p.hr = true := by simp [acquiredHr, h1]
        cases hsil : p.silent with
        | true =>
          rw [drain_cons_silent fs Z p rest b h1 h2 hsil]
          simp only [scanAcqRel, hacq, if_pos rfl, if_true]
          rw [scanAcqRel_append,
            scanAcqRel_writes _ 1 (silentWrites_allWrites Z p.wres 0 (p.frames * fs) b)]
          simp [scanAcqRel, ih]
        | false =>
          rw [drain_cons_data fs Z p rest b h1 h2 hsil]
          simp only [scanAcqRel, hacq, if_pos rfl, if_true]
          simp [scanAcqRel, ih]

theorem captureLoop_false (fs Z : Nat) (cs : List Cycle) :
    captureLoop fs Z cs false = ([], false) := by
  cases cs with
  | nil => rfl
  | cons c rest => simp [captureLoop]

theorem captureLoop_cons_skip (fs Z : Nat) (c : Cycle) (rest : List Cycle)
    (hc : c.ctrl = false) (hs : c.signaled = false) :
    captureLoop fs Z (c :: rest) true = captureLoop fs Z rest true := by
  simp [captureLoop, hc, hs]

theorem captureLoop_cons_drain (fs Z : Nat) (c : Cycle) (rest : List Cycle)
    (hc : c.ctrl = false) (hs : c.signaled = true) :
    captureLoop fs Z (c :: rest) true =
      ((drain fs Z c.packets true).1 ++
         (captureLoop fs Z rest (drain fs Z c.packets true).2).1,
       (captureLoop fs Z rest (drain fs Z c.packets true).2).2) := by
  simp [captureLoop, hc, hs]

theorem captureLoop_cons_ctrl (fs Z : Nat) (c : Cycle) (rest : List Cycle) (b : Bool)
    (hc : c.ctrl = true) :
    captureLoop fs Z (c :: rest) b = ([], false) := by
  simp [captureLoop, hc]

theorem captureLoop_write_mem (fs Z : Nat) (cs : List Cycle) :
    ∀ b k l d w, Ev.write k l d w ∈ (captureLoop fs Z cs b).1 →
      (k = WKind.data ∧ ∃ n, l = n * fs) ∨
      (k = WKind.silent ∧ l ≤ Z ∧ d = List.replicate l 0) := by
  induction cs with
  | nil => intro b k l d w h; simp [captureLoop] at h
  | cons c rest ih =>
    intro b k l d w h
    cases hc : c.ctrl with
    | true =>
      rw [captureLoop_cons_ctrl fs Z c rest b hc] at h
      simp at h
    | false =>
      cases hb : b with
      | false =>
        rw [hb, captureLoop_false] at h
        simp at h
      | true =>
        rw [hb] at h
        cases hs : c.signaled with
        | false =>
          rw [captureLoop_cons_skip fs Z c rest hc hs] at h
          exact ih true k l d w h
        | true =>
          rw [captureLoop_cons_drain fs Z c rest hc hs] at h
          rcases List.mem_append.mp h with h | h
          · rcases drain_write_mem fs Z c.packets true k l d w h with
              ⟨hk, p, -, hl, -⟩ | hr
            · exact Or.inl ⟨hk, p.frames, hl⟩
            · exact Or.inr hr
          · exact ih _ k l d w h

theorem captureLoop_scan (fs Z : Nat) (cs : List Cycle) :
    ∀ b, scanAcqRel (captureLoop fs Z cs b).1 0 = some 0 := by
  induction cs with
  | nil => intro b; simp [captureLoop, scanAcqRel]
  | cons c rest ih =>
    intro b
    cases hc : c.ctrl with
    | true => rw [captureLoop_cons_ctrl fs Z c rest b hc]; simp [scanAcqRel]
    | false =>
      cases hb : b with
      | false => rw [captureLoop_false]; simp [scanAcqRel]
      | true =>
        cases hs : c.signaled with
        | false => rw [captureLoop_cons_skip fs Z c rest hc hs]; exact ih true
        | true =>
          rw [captureLoop_cons_drain fs Z c rest hc hs]
          simp only
          rw [scanAcqRel_append, drain_scan]
          simpa using ih _

theorem silentGo_false (Z : Nat) (wres : Nat → Int) (fuel i r : Nat) :
    silentGo Z wres fuel i r false = ([], false) := by
  cases fuel <;> simp [silentGo]

theorem drain_false (fs Z : Nat) (ps : List Packet) : (drain fs Z ps false).2 = false := by
  induction ps with
  | nil => rfl
  | cons p rest ih =>
    by_cases h1 : p.hr = AUDCLNT_S_BUFFER_EMPTY ∨ p.hr < 0
    · simp [drain, h1]
    · by_cases h2 : p.frames = 0
      · simp [drain, h1, h2]
      · cases hsil : p.silent with
        | true =>
          rw [drain_cons_silent fs Z p rest false h1 h2 hsil]
          simp only [silentWrites, silentGo_false]
          exact ih
        | false =>
          rw [drain_cons_data fs Z p rest false h1 h2 hsil]
          simp only
          split <;> exact ih

theorem silentWrites_success (Z : Nat) (wres : Nat → Int) (hZ : 0 < Z)
    (hw : ∀ j, 0 < wres j) (i r : Nat) :
    (silentWrites Z wres i r true).2 = true ∧
    writtenTotal (silentWrites Z wres i r true).1 = r ∧
    payloadConcat (silentWrites Z wres i r true).1 = List.replicate r 0 :=
  silentGo_success Z wres hZ hw r r i le_rfl

theorem startedOk_of_conds (e : Env)
    (n1 : ¬ e.argc < 2) (n2 : ¬ e.hrCoInit < 0) (n3 : ¬ e.hrActivateAsync < 0)
    (n4 : ¬ (e.hrActivate < 0 ∨ e.gotActivated = false)) (n5 : ¬ e.hrQI < 0)
    (n6 : ¬ e.hrInit < 0) (n7 : ¬ e.hrSetEvent < 0) (n8 : ¬ e.hrGetService < 0)
    (n9 : ¬ e.headerW ≠ 12) (n10 : ¬ e.hrStart < 0) : startedOk e := by
  rcases not_or.mp n4 with ⟨n4a, n4b⟩
  have hgot : e.gotActivated = true := by
    cases hgb : e.gotActivated
    · exact absurd hgb n4b
    · rfl
  exact ⟨by omega, not_lt.mp n2, not_lt.mp n3, not_lt.mp n4a, hgot, not_lt.mp n5,
    not_lt.mp n6, not_lt.mp n7, not_lt.mp n8, not_not.mp n9, not_lt.mp n10⟩

/-- Exhaustive description of `wmain`'s branches: the usage message is
printed exactly when the argument is missing; any activation failure leaves
the data channel untouched; and every run either fails setup (exit 1, with
one of the four possible truncated traces), hangs in the loop, or exits 0
with the full trace ending in `Stop`. -/
theorem wmain_shape (e : Env) :
    ((wmain e).usageMsg = true ↔ e.argc < 2) ∧
    ((e.hrActivate < 0 ∨ e.gotActivated = false) → (wmain e).events = []) ∧
    ((¬ startedOk e ∧ (wmain e).exitCode = some 1 ∧
       ((wmain e).events = [] ∨
        (wmain e).events = [Ev.initCall e.hrInit] ∨
        (wmain e).events =
          [Ev.initCall e.hrInit,
           Ev.write WKind.header 12 (headerBytes (resolvedFmt e)) e.headerW] ∨
        (wmain e).events = preLoopEvents e)) ∨
     (startedOk e ∧ (captureLoop (frameSize e) 8192 e.cycles true).2 = true ∧
       (wmain e).exitCode = none ∧
       (wmain e).events =
         preLoopEvents e ++ (captureLoop (frameSize e) 8192 e.cycles true).1) ∨
     (startedOk e ∧ (captureLoop (frameSize e) 8192 e.cycles true).2 = false ∧
       (wmain e).exitCode = some 0 ∧
       (wmain e).events =
         preLoopEvents e ++ (captureLoop (frameSize e) 8192 e.cycles true).1 ++
           [Ev.stop])) := by
  by_cases c1 : e.argc < 2
  · have heq : wmain e = ⟨some 1, [], true⟩ := by simp only [wmain, if_pos c1]
    exact ⟨by simp [heq, c1], fun _ => by rw [heq],
      Or.inl ⟨fun hs => absurd hs.1 (by omega), by rw [heq], Or.inl (by rw [heq])⟩⟩
  by_cases c2 : e.hrCoInit < 0
  · have heq : wmain e = ⟨some 1, [], false⟩ := by
      simp only [wmain, if_neg c1, if_pos c2]
    exact ⟨by simp [heq, c1], fun _ => by rw [heq],
      Or.inl ⟨fun hs => absurd hs.2.1 (not_le.mpr c2), by rw [heq], Or.inl (by rw [heq])⟩⟩
  by_cases c3 : e.hrActivateAsync < 0
  · have heq : wmain e = ⟨some 1, [], false⟩ := by
      simp only [wmain, if_neg c1, if_neg c2, if_pos c3]
    exact ⟨by simp [heq, c1], fun _ => by rw [heq],
      Or.inl ⟨fun hs => absurd hs.2.2.1 (not_le.mpr c3), by rw [heq],
        Or.inl (by rw [heq])⟩⟩
  by_cases c4 : e.hrActivate < 0 ∨ e.gotActivated = false
  · have heq : wmain e = ⟨some 1, [], false⟩ := by
      simp only [wmain, if_neg c1, if_neg c2, if_neg c3, if_pos c4]
    refine ⟨by simp [heq, c1], fun _ => by rw [heq], Or.inl ⟨?_, by rw [heq],
      Or.inl (by rw [heq])⟩⟩
    intro hs
    rcases c4 with hx | hx
    · exact absurd hs.2.2.2.1 (not_le.mpr hx)
    · rw [hs.2.2.2.2.1] at hx
      exact Bool.noConfusion hx
  by_cases c5 : e.hrQI < 0
  · have heq : wmain e = ⟨some 1, [], false⟩ := by
      simp only [wmain, if_neg c1, if_neg c2, if_neg c3, if_neg c4, if_pos c5]
    exact ⟨by simp [heq, c1], fun hx => absurd hx c4,
      Or.inl ⟨fun hs => absurd hs.2.2.2.2.2.1 (not_le.mpr c5), by rw [heq],
        Or.inl (by rw [heq])⟩⟩
  by_cases c6 : e.hrInit < 0
  · have heq : wmain e = ⟨some 1, [Ev.initCall e.hrInit], false⟩ := by
      simp only [wmain, if_neg c1, if_neg c2, if_neg c3, if_neg c4, if_neg c5, if_pos c6]
    exact ⟨by simp [heq, c1], fun hx => absurd hx c4,
      Or.inl ⟨fun hs => absurd hs.2.2.2.2.2.2.1 (not_le.mpr c6), by rw [heq],
        Or.inr (Or.inl (by rw [heq]))⟩⟩
  by_cases c7 : e.hrSetEvent < 0
  · have heq : wmain e = ⟨some 1, [Ev.initCall e.hrInit], false⟩ := by
      simp only [wmain, if_neg c1, if_neg c2, if_neg c3, if_neg c4, if_neg c5, if_neg c6,
        if_pos c7]
    exact ⟨by simp [heq, c1], fun hx => absurd hx c4,
      Or.inl ⟨fun hs => absurd hs.2.2.2.2.2.2.2.1 (not_le.mpr c7), by rw [heq],
        Or.inr (Or.inl (by rw [heq]))⟩⟩
  by_cases c8 : e.hrGetService < 0
  · have heq : wmain e = ⟨some 1, [Ev.initCall e.hrInit], false⟩ := by
      simp only [wmain, if_neg c1, if_neg c2, if_neg c3, if_neg c4, if_neg c5, if_neg c6,
        if_neg c7, if_pos c8]
    exact ⟨by simp [heq, c1], fun hx => absurd hx c4,
      Or.inl ⟨fun hs => absurd hs.2.2.2.2.2.2.2.2.1 (not_le.mpr c8), by rw [heq],
        Or.inr (Or.inl (by rw [heq]))⟩⟩
  by_cases c9 : e.headerW ≠ 12
  · have heq : wmain e =
        ⟨some 1,
         [Ev.initCall e.hrInit,
          Ev.write WKind.header 12 (headerBytes (resolvedFmt e)) e.headerW],
         false⟩ := by
      simp only [wmain, if_neg c1, if_neg c2, if_neg c3, if_neg c4, if_neg c5, if_neg c6,
        if_neg c7, if_neg c8, if_pos c9]
    exact ⟨by simp [heq, c1], fun hx => absurd hx c4,
      Or.inl ⟨fun hs => absurd hs.2.2.2.2.2.2.2.2.2.1 c9, by rw [heq],
        Or.inr (Or.inr (Or.inl (by rw [heq])))⟩⟩
  by_cases c10 : e.hrStart < 0
  · have heq : wmain e = ⟨some 1, preLoopEvents e, false⟩ := by
      simp only [wmain, if_neg c1, if_neg c2, if_neg c3, if_neg c4, if_neg c5, if_neg c6,
        if_neg c7, if_neg c8, if_neg c9, if_pos c10]
    exact ⟨by simp [heq, c1], fun hx => absurd hx c4,
      Or.inl ⟨fun hs => absurd hs.2.2.2.2.2.2.2.2.2.2 (not_le.mpr c10), by rw [heq],
        Or.inr (Or.inr (Or.inr (by rw [heq])))⟩⟩
  have hok : startedOk e := startedOk_of_conds e c1 c2 c3 c4 c5 c6 c7 c8 c9 c10
  by_cases c11 : (captureLoop (frameSize e) 8192 e.cycles true).2 = true
  · have heq : wmain e =
        ⟨none, preLoopEvents e ++ (captureLoop (frameSize e) 8192 e.cycles true).1,
         false⟩ := by
      simp only [wmain, if_neg c1, if_neg c2, if_neg c3, if_neg c4, if_neg c5, if_neg c6,
        if_neg c7, if_neg c8, if_neg c9, if_neg c10, if_pos c11]
    exact ⟨by simp [heq, c1], fun hx => absurd hx c4,
      Or.inr (Or.inl ⟨hok, c11, by rw [heq], by rw [heq]⟩)⟩
  · have hff : (captureLoop (frameSize e) 8192 e.cycles true).2 = false := by
      revert c11
      cases (captureLoop (frameSize e) 8192 e.cycles true).2 <;> simp
    have heq : wmain e =
        ⟨some 0,
         preLoopEvents e ++ (captureLoop (frameSize e) 8192 e.cycles true).1 ++
           [Ev.stop],
         false⟩ := by
      simp only [wmain, if_neg c1, if_neg c2, if_neg c3, if_neg c4, if_neg c5, if_neg c6,
        if_neg c7, if_neg c8, if_neg c9, if_neg c10, if_neg c11]
    exact ⟨by simp [heq, c1], fun hx => absurd hx c4,
      Or.inr (Or.inr ⟨hok, hff, by rw [heq], by rw [heq]⟩)⟩

/-! Concrete runs used by counterexamples and witnesses. -/

/-- A plain (non-extensible) 48 kHz stereo float32 mix format, as reported
by `GetMixFormat` on a typical machine. -/
def plainFloatFmt : WAVEFORMATEXTENSIBLE :=
  { Format :=
      { wFormatTag := 3, nChannels := 2, nSamplesPerSec := 48000,
        nAvgBytesPerSec := 384000, nBlockAlign := 8, wBitsPerSample := 32, cbSize := 0 },
    wValidBitsPerSample := 32, dwChannelMask := 3,
    SubFormat := { Data1 := 3, Data2 := 0, Data3 := 0, Data4 := [] } }

/-- Environment in which every platform call succeeds and no capture cycles
are supplied yet. -/
def okEnv : Env :=
  { argc := 2, arg1 := ['1', '2', '3', '4'], hrCoInit := 0, hrActivateAsync := 0,
    hrActivate := 0, gotActivated := true, hrQI := 0, hrMix := 0,
    mixFmt := plainFloatFmt, hrInit := 0, hrSetEvent := 0, hrGetService := 0,
    headerW := 12, hrStart := 0, cycles := [] }

/-- A cycle in which the console-control handler has cleared `g_running`. -/
def ctrlCycle : Cycle := { ctrl := true, signaled := false, packets := [] }

/-- Run in which `GetMixFormat` fails with `E_FAIL` — a status other than
`E_NOTIMPL` — everything else succeeds, and a control signal then ends the
loop. -/
def e1demo : Env := { okEnv with hrMix := E_FAIL, cycles := [ctrlCycle] }

/-- C1: the claim says a non-`E_NOTIMPL` failure of the mix-format query
aborts the session with `FormatQueryFailed` before `Initialize` is ever
called, with the fallback used only on `E_NOTIMPL`.  Counterexample: with
`GetMixFormat` failing with `E_FAIL` (≠ `E_NOTIMPL`) the program uses the
fallback descriptor, calls `Initialize`, and completes with exit code 0 —
the source (line 288) tests `FAILED(hr)`, not `hr == E_NOTIMPL`, and has no
abort path for the format query. -/
theorem C1_counterexample :
    e1demo.hrMix = E_FAIL ∧ ¬ e1demo.hrMix = E_NOTIMPL ∧ e1demo.hrMix < 0 ∧
    usingFallback e1demo = true ∧
    resolvedWave e1demo = fallbackFmt ∧
    (wmain e1demo).events =
      [Ev.initCall 0,
       Ev.write WKind.header 12 [128, 187, 0, 0, 2, 0, 32, 0, 3, 0, 0, 0] 12,
       Ev.start, Ev.stop] ∧
    (wmain e1demo).exitCode = some 0 := by
  decide

/-- C1 (amended): whenever the primary mix-format query fails — with any
failing status, `E_NOTIMPL` or otherwise — the negotiator falls back to the
canonical descriptor (48000/2/32/float) and the session proceeds: provided
setup up to that point succeeded, `Initialize` is still called.  There is
no `FormatQueryFailed` abort in the code. -/
theorem C1_amended (e : Env) (h : e.hrMix < 0) (hp : preFormatOk e) :
    resolvedWave e = fallbackFmt ∧
    usingFallback e = true ∧
    resolvedFmt e = ⟨48000, 2, 32, 3⟩ ∧
    Ev.initCall e.hrInit ∈ (wmain e).events := by
  obtain ⟨hpa, hpb, hpc, hpd, hpe, hpf⟩ := hp
  have h1 : ¬ e.argc < 2 := by omega
  have h2 : ¬ e.hrCoInit < 0 := not_lt.mpr hpb
  have h3 : ¬ e.hrActivateAsync < 0 := not_lt.mpr hpc
  have h4 : ¬ (e.hrActivate < 0 ∨ e.gotActivated = false) := by
    rintro (hx | hx)
    · exact absurd hx (not_lt.mpr hpd)
    · rw [hpe] at hx
      exact Bool.noConfusion hx
  have h5 : ¬ e.hrQI < 0 := not_lt.mpr hpf
  refine ⟨by simp [resolvedWave, h], by simp [usingFallback, h], ?_, ?_⟩
  · unfold resolvedFmt
    rw [show resolvedWave e = fallbackFmt from by simp [resolvedWave, h]]
    decide
  · simp only [wmain, if_neg h1, if_neg h2, if_neg h3, if_neg h4, if_neg h5]
    split_ifs <;> simp [preLoopEvents]

/-- Witness for C1 (amended) at the concrete run `e1demo`. -/
theorem C1_amended_witness :
    resolvedWave e1demo = fallbackFmt ∧ usingFallback e1demo = true ∧
    resolvedFmt e1demo = ⟨48000, 2, 32, 3⟩ ∧
    Ev.initCall e1demo.hrInit ∈ (wmain e1demo).events :=
  C1_amended e1demo (by decide) (by decide)

/-- Sample bytes of the first demo packet (frameSize 8, one frame). -/
def d8a : List Nat := [1, 2, 3, 4, 5, 6, 7, 8]

/-- Sample bytes of the second demo packet. -/
def d8b : List Nat := [9, 10, 11, 12, 13, 14, 15, 16]

/-- A good non-silent packet whose single write fails (broken pipe). -/
def pFail : Packet :=
  { hr := 0, frames := 1, silent := false, data := d8a, wres := fun _ => 0 }

/-- A good non-silent packet whose write succeeds. -/
def pOk : Packet :=
  { hr := 0, frames := 1, silent := false, data := d8b, wres := fun _ => 8 }

/-- Run with one signaled cycle holding two packets; the first packet's
write fails. -/
def e2demo : Env :=
  { okEnv with cycles := [{ ctrl := false, signaled := true, packets := [pFail, pOk] }] }

/-- C2: the claim says that after the first write returning ≤ 0 the drain
is aborted immediately and no further `GetBuffer` calls or writes occur.
Counterexample: in `e2demo` the write for the first packet fails (result 0,
event index 4), yet the trace continues with another `GetBuffer` (index 6),
another data write (index 7), and a final `GetBuffer` returning
buffer-empty — the source's inner drain loop (lines 412-446) has no break
after a failed write; only the outer loop stops. -/
theorem C2_counterexample :
    (wmain e2demo).events =
      [Ev.initCall 0,
       Ev.write WKind.header 12 [128, 187, 0, 0, 2, 0, 32, 0, 3, 0, 0, 0] 12,
       Ev.start,
       Ev.getBuffer 0 1 false,
       Ev.write WKind.data 8 d8a 0,
       Ev.releaseBuffer 1,
       Ev.getBuffer 0 1 false,
       Ev.write WKind.data 8 d8b 8,
       Ev.releaseBuffer 1,
       Ev.getBuffer AUDCLNT_S_BUFFER_EMPTY 0 false,
       Ev.stop] ∧
    (wmain e2demo).exitCode = some 0 := by
  decide

/-- C2 (amended): a data-channel write returning ≤ 0 clears the Shutdown
Flag, and the flag stays cleared for the rest of the drain; the outer loop
then performs no further wait cycles and — when setup succeeded and the
loop terminates — the process exits with code 0, its last action the
endpoint `Stop`.  The in-progress drain, however, is NOT aborted: it
continues through the remaining queued packets (further `GetBuffer` calls,
and a direct write for each further non-silent packet) until the endpoint
reports buffer-empty. -/
theorem C2_amended (fs Z : Nat) (p : Packet) (rest : List Packet) (e : Env)
    (h1 : ¬(p.hr = AUDCLNT_S_BUFFER_EMPTY ∨ p.hr < 0)) (h2 : ¬p.frames = 0)
    (h3 : p.silent = false) (h4 : p.wres 0 ≤ 0)
    (hok : startedOk e)
    (hterm : (captureLoop (frameSize e) 8192 e.cycles true).2 = false) :
    (drain fs Z (p :: rest) true).1 =
      Ev.getBuffer p.hr p.frames false ::
        Ev.write WKind.data (p.frames * fs) p.data (p.wres 0) ::
          Ev.releaseBuffer p.frames :: (drain fs Z rest false).1 ∧
    (drain fs Z (p :: rest) true).2 = false ∧
    (∀ cs, captureLoop fs Z cs false = ([], false)) ∧
    (wmain e).exitCode = some 0 ∧
    (wmain e).events.getLast? = some Ev.stop := by
  obtain ⟨ha, hb, hc, hd, he, hf, hg, hh, hi, hj, hk⟩ := hok
  have n1 : ¬ e.argc < 2 := by omega
  have n2 : ¬ e.hrCoInit < 0 := not_lt.mpr hb
  have n3 : ¬ e.hrActivateAsync < 0 := not_lt.mpr hc
  have n4 : ¬ (e.hrActivate < 0 ∨ e.gotActivated = false) := by
    rintro (hx | hx)
    · exact absurd hx (not_lt.mpr hd)
    · rw [he] at hx
      exact Bool.noConfusion hx
  have n5 : ¬ e.hrQI < 0 := not_lt.mpr hf
  have n6 : ¬ e.hrInit < 0 := not_lt.mpr hg
  have n7 : ¬ e.hrSetEvent < 0 := not_lt.mpr hh
  have n8 : ¬ e.hrGetService < 0 := not_lt.mpr hi
  have n9 : ¬ e.headerW ≠ 12 := not_not.mpr hj
  have n10 : ¬ e.hrStart < 0 := not_lt.mpr hk
  have n11 : ¬ (captureLoop (frameSize e) 8192 e.cycles true).2 = true := by
    rw [hterm]
    exact Bool.noConfusion
  have hmain : wmain e =
      ⟨some 0,
       preLoopEvents e ++ (captureLoop (frameSize e) 8192 e.cycles true).1 ++ [Ev.stop],
       false⟩ := by
    simp only [wmain, if_neg n1, if_neg n2, if_neg n3, if_neg n4, if_neg n5, if_neg n6,
      if_neg n7, if_neg n8, if_neg n9, if_neg n10, if_neg n11]
  refine ⟨?_, ?_, fun cs => captureLoop_false fs Z cs, ?_, ?_⟩
  · rw [drain_cons_data fs Z p rest true h1 h2 h3]
    simp [if_pos h4, h3]
  · rw [drain_cons_data fs Z p rest true h1 h2 h3]
    simp only [if_pos h4]
    exact drain_false fs Z rest
  · rw [hmain]
  · rw [hmain]
    exact List.getLast?_concat _

/-- Witness for C2 (amended) at the concrete run `e2demo`. -/
theorem C2_amended_witness :
    (drain 8 8192 [pFail] true).2 = false ∧ (wmain e2demo).exitCode = some 0 := by
  have h := C2_amended 8 8192 pFail [] e2demo (by decide) (by decide) rfl (by decide)
    (by decide) (by decide)
  exact ⟨h.2.1, h.2.2.2.1⟩

/-- A good silent packet of 2 frames whose writes all succeed. -/
def pSil : Packet :=
  { hr := 0, frames := 2, silent := true, data := [], wres := fun _ => 1 }

/-- C3: for a buffer flagged silent, with the Shutdown Flag set and every
write succeeding, the bytes sent for that buffer are exactly
`frames * frameSize` zero bytes, byte-for-byte; every chunk written is a
zero-filled chunk of at most 8192 bytes (the flag is consulted before each
chunk — `silentGo` stops as soon as `running` is false); and the total is
the same for every positive chunk size `Z`. -/
theorem C3_silent_zero_fill (fs : Nat) (p : Packet)
    (h1 : ¬(p.hr = AUDCLNT_S_BUFFER_EMPTY ∨ p.hr < 0)) (h2 : ¬p.frames = 0)
    (hsil : p.silent = true) (hw : ∀ j, 0 < p.wres j) :
    payloadConcat (drain fs 8192 [p] true).1 = List.replicate (p.frames * fs) 0 ∧
    (drain fs 8192 [p] true).2 = true ∧
    (∀ k l d w, Ev.write k l d w ∈ (drain fs 8192 [p] true).1 →
       k = WKind.silent ∧ l ≤ 8192 ∧ d = List.replicate l 0) ∧
    (∀ Z, 0 < Z → writtenTotal (drain fs Z [p] true).1 = p.frames * fs) := by
  have hsucc := silentWrites_success 8192 p.wres (by norm_num) hw 0 (p.frames * fs)
  refine ⟨?_, ?_, ?_, ?_⟩
  · rw [drain_cons_silent fs 8192 p [] true h1 h2 hsil]
    simp only [payloadConcat, writePayload, payloadConcat_append, hsucc.2.2, hsucc.1,
      drain, List.nil_append, List.append_nil]
  · rw [drain_cons_silent fs 8192 p [] true h1 h2 hsil]
    simp only [hsucc.1, drain]
  · intro k l d w hmem
    rw [drain_cons_silent fs 8192 p [] true h1 h2 hsil] at hmem
    simp only [hsucc.1, drain, List.mem_cons, List.mem_append, List.mem_singleton,
      List.not_mem_nil, or_false] at hmem
    rcases hmem with hmem | hmem | hmem | hmem
    · exact Ev.noConfusion hmem
    · obtain ⟨l', w', heq, hle⟩ := silentWrites_mem 8192 p.wres 0 (p.frames * fs) true _ hmem
      rw [Ev.write.injEq] at heq
      obtain ⟨hk, hl, hd, -⟩ := heq
      subst hk
      subst hl
      exact ⟨rfl, hle, hd⟩
    · exact Ev.noConfusion hmem
    · exact Ev.noConfusion hmem
  · intro Z hZ
    have hsZ := silentWrites_success Z p.wres hZ hw 0 (p.frames * fs)
    rw [drain_cons_silent fs Z p [] true h1 h2 hsil]
    simp only [writtenTotal, writeLen, writtenTotal_append, hsZ.1, hsZ.2.1, drain]
    omega

/-- Witness for C3 at a concrete 2-frame silent packet (frame size 8),
including the chunk-size-independence part at chunk size 2. -/
theorem C3_witness :
    payloadConcat (drain 8 8192 [pSil] true).1 = List.replicate 16 0 ∧
    writtenTotal (drain 8 2 [pSil] true).1 = 16 := by
  have h := C3_silent_zero_fill 8 pSil (by decide) (by decide) rfl (fun _ => Int.one_pos)
  exact ⟨h.1, h.2.2.2 2 (by decide)⟩

/-- C4: the stream header serializes to exactly 12 bytes; in every run that
exits 0 the first three events are `Initialize`, the 12-byte header write,
and `Start` — so the header is the first data-channel write, written once,
before any sample data and before capture starts; and when the header write
transfers fewer than 12 bytes (all earlier stages having succeeded) the
process exits with code 1, the header write being its last action. -/
theorem C4_header_first (e : Env) :
    (headerBytes (resolvedFmt e)).length = 12 ∧
    ((wmain e).exitCode = some 0 →
      (wmain e).events.take 3 =
        [Ev.initCall e.hrInit,
         Ev.write WKind.header 12 (headerBytes (resolvedFmt e)) e.headerW,
         Ev.start]) ∧
    (preFormatOk e → 0 ≤ e.hrInit → 0 ≤ e.hrSetEvent → 0 ≤ e.hrGetService →
     e.headerW < 12 →
      (wmain e).exitCode = some 1 ∧
      (wmain e).events =
        [Ev.initCall e.hrInit,
         Ev.write WKind.header 12 (headerBytes (resolvedFmt e)) e.headerW]) := by
  refine ⟨by simp [headerBytes, u32le, u16le], ?_, ?_⟩
  · intro h
    rcases (wmain_shape e).2.2 with ⟨-, hc, -⟩ | ⟨-, -, hc, -⟩ | ⟨-, -, -, hev⟩
    · rw [hc] at h
      exact absurd h (by simp)
    · rw [hc] at h
      exact absurd h (by simp)
    · rw [hev]
      simp [preLoopEvents]
  · intro hp hi hsv hgs hwr
    obtain ⟨hpa, hpb, hpc, hpd, hpe, hpf⟩ := hp
    have n1 : ¬ e.argc < 2 := by omega
    have n2 : ¬ e.hrCoInit < 0 := not_lt.mpr hpb
    have n3 : ¬ e.hrActivateAsync < 0 := not_lt.mpr hpc
    have n4 : ¬ (e.hrActivate < 0 ∨ e.gotActivated = false) := by
      rintro (hx | hx)
      · exact absurd hx (not_lt.mpr hpd)
      · rw [hpe] at hx
        exact Bool.noConfusion hx
    have n5 : ¬ e.hrQI < 0 := not_lt.mpr hpf
    have n6 : ¬ e.hrInit < 0 := not_lt.mpr hi
    have n7 : ¬ e.hrSetEvent < 0 := not_lt.mpr hsv
    have n8 : ¬ e.hrGetService < 0 := not_lt.mpr hgs
    have n9 : e.headerW ≠ 12 := by omega
    simp only [wmain, if_neg n1, if_neg n2, if_neg n3, if_neg n4, if_neg n5, if_neg n6,
      if_neg n7, if_neg n8, if_pos n9]
    exact ⟨trivial, trivial⟩

/-- Run in which every stage succeeds but the header write transfers 0
bytes. -/
def e4demo : Env := { okEnv with headerW := 0 }

/-- Witness for C4 at `e4demo`: short header write gives exit code 1. -/
theorem C4_witness :
    (headerBytes (resolvedFmt e4demo)).length = 12 ∧
    (wmain e4demo).exitCode = some 1 := by
  have h := C4_header_first e4demo
  exact ⟨h.1, (h.2.2 (by decide) (by decide) (by decide) (by decide) (by decide)).1⟩

/-- C5: whenever the fallback path is taken (any failing mix-format query),
the descriptor is exactly 48000 Hz, 2 channels, 32-bit IEEE float in
extensible encoding with channel mask 3 (front-left | front-right), it is
internally consistent (block alignment 8 = channels x bytes-per-sample,
average byte rate 384000 = sample rate x block alignment), and the
resulting StreamHeader bytes are
[0x80, 0xBB, 0x00, 0x00, 0x02, 0x00, 0x20, 0x00, 0x03, 0x00, 0x00, 0x00]. -/
theorem C5_fallback_descriptor (e : Env) (h : e.hrMix < 0) :
    resolvedWave e = fallbackFmt ∧
    fallbackFmt.Format.nSamplesPerSec = 48000 ∧
    fallbackFmt.Format.nChannels = 2 ∧
    fallbackFmt.Format.wBitsPerSample = 32 ∧
    fallbackFmt.wValidBitsPerSample = 32 ∧
    fallbackFmt.SubFormat = KSDATAFORMAT_SUBTYPE_IEEE_FLOAT_LOCAL ∧
    fallbackFmt.SubFormat.Data1 = 3 ∧
    fallbackFmt.dwChannelMask = 3 ∧
    fallbackFmt.Format.wFormatTag = WAVE_FORMAT_EXTENSIBLE ∧
    fallbackFmt.Format.nBlockAlign =
      fallbackFmt.Format.nChannels * (fallbackFmt.Format.wBitsPerSample / 8) ∧
    fallbackFmt.Format.nBlockAlign = 8 ∧
    fallbackFmt.Format.nAvgBytesPerSec =
      fallbackFmt.Format.nSamplesPerSec * fallbackFmt.Format.nBlockAlign ∧
    fallbackFmt.Format.nAvgBytesPerSec = 384000 ∧
    resolvedFmt e = ⟨48000, 2, 32, 3⟩ ∧
    headerBytes (resolvedFmt e) = [128, 187, 0, 0, 2, 0, 32, 0, 3, 0, 0, 0] := by
  have hrw : resolvedWave e = fallbackFmt := by simp [resolvedWave, h]
  have hfm : resolvedFmt e = ⟨48000, 2, 32, 3⟩ := by
    unfold resolvedFmt
    rw [hrw]
    decide
  refine ⟨hrw, by decide, by decide, by decide, by decide, by decide, by decide, by decide,
    by decide, by decide, by decide, by decide, by decide, hfm, ?_⟩
  rw [hfm]
  decide

/-- Run in which `GetMixFormat` fails with exactly `E_NOTIMPL`. -/
def e5demo : Env := { okEnv with hrMix := E_NOTIMPL, cycles := [ctrlCycle] }

/-- Witness for C5 at `e5demo` (the `E_NOTIMPL` case). -/
theorem C5_witness :
    resolvedWave e5demo = fallbackFmt ∧
    headerBytes (resolvedFmt e5demo) = [128, 187, 0, 0, 2, 0, 32, 0, 3, 0, 0, 0] := by
  have h := C5_fallback_descriptor e5demo (by decide)
  obtain ⟨h1, -, -, -, -, -, -, -, -, -, -, -, -, -, h15⟩ := h
  exact ⟨h1, h15⟩

theorem preLoop_write_mem (e : Env) :
    ∀ k l d w, Ev.write k l d w ∈ preLoopEvents e → k = WKind.header ∧ l = 12 := by
  intro k l d w h
  simp only [preLoopEvents, List.mem_cons, List.not_mem_nil, or_false] at h
  rcases h with h | h | h
  · exact Ev.noConfusion h
  · rw [Ev.write.injEq] at h
    exact ⟨h.1, h.2.1⟩
  · exact Ev.noConfusion h

theorem wmain_events_sub (e : Env) :
    ∀ ev ∈ (wmain e).events,
      ev ∈ preLoopEvents e ++
        ((captureLoop (frameSize e) 8192 e.cycles true).1 ++ [Ev.stop]) := by
  intro ev h
  rcases (wmain_shape e).2.2 with ⟨-, -, hev⟩ | ⟨-, -, -, hev⟩ | ⟨-, -, -, hev⟩
  · rcases hev with hev | hev | hev | hev <;> rw [hev] at h <;>
      simp only [preLoopEvents, List.mem_cons, List.mem_append, List.not_mem_nil,
        or_false, List.mem_singleton] at h ⊢ <;> tauto
  · rw [hev] at h
    simp only [preLoopEvents, List.mem_cons, List.mem_append, List.not_mem_nil,
      or_false, List.mem_singleton] at h ⊢
    tauto
  · rw [hev] at h
    simp only [preLoopEvents, List.mem_cons, List.mem_append, List.not_mem_nil,
      or_false, List.mem_singleton] at h ⊢
    tauto

/-- C6: every write to the data channel requests either the 12 header
bytes, or — on the data path — exactly `frames * frameSize` bytes for some
acquired packet (a whole number of frames), or — on the silent path — one
zero-filled chunk of at most 8192 bytes, and for every silent buffer whose
chunk loop completes the chunk requests sum to exactly the requested byte
count (whole frames); no other write is ever issued. -/
theorem C6_whole_frame_writes (e : Env) :
    (∀ k l d w, Ev.write k l d w ∈ (wmain e).events →
      (k = WKind.header ∧ l = 12) ∨
      (k = WKind.data ∧ ∃ n, l = n * frameSize e) ∨
      (k = WKind.silent ∧ l ≤ 8192)) ∧
    (∀ Z wres r, 0 < Z → (∀ j, 0 < wres j) →
      writtenTotal (silentWrites Z wres 0 r true).1 = r) := by
  refine ⟨?_, fun Z wres r hZ hw => (silentWrites_success Z wres hZ hw 0 r).2.1⟩
  intro k l d w h
  have h' := wmain_events_sub e _ h
  rcases List.mem_append.mp h' with hp | hl
  · exact Or.inl (preLoop_write_mem e k l d w hp)
  · rcases List.mem_append.mp hl with hl | hstop
    · rcases captureLoop_write_mem (frameSize e) 8192 e.cycles true k l d w hl with
        ⟨hk, n, hn⟩ | ⟨hk, hle, -⟩
      · exact Or.inr (Or.inl ⟨hk, n, hn⟩)
      · exact Or.inr (Or.inr ⟨hk, hle⟩)
    · rw [List.mem_singleton] at hstop
      exact Ev.noConfusion hstop

/-- Witness for C6: a 16-byte silent buffer is emitted as chunk requests
summing to exactly 16 bytes. -/
theorem C6_witness :
    writtenTotal (silentWrites 8192 (fun _ => 1) 0 16 true).1 = 16 :=
  (C6_whole_frame_writes okEnv).2 8192 (fun _ => 1) 16 (by norm_num) (fun _ => Int.one_pos)

/-- C7: when the resolved descriptor carries `WAVE_FORMAT_EXTENSIBLE`
(whether it came from the primary query or is the fallback), the header's
`formatTag` is the first 32-bit field of the nested `SubFormat` GUID and
its `bitsPerSample` is the nested `wValidBitsPerSample` — not the outer
container's values — while sample rate and channel count come from the
outer struct. -/
theorem C7_extensible_unwrap (w : WAVEFORMATEXTENSIBLE) (e : Env)
    (hw : w.Format.wFormatTag = WAVE_FORMAT_EXTENSIBLE)
    (he : 0 ≤ e.hrMix) (hext : e.mixFmt.Format.wFormatTag = WAVE_FORMAT_EXTENSIBLE) :
    (extractFmt w).formatTag = w.SubFormat.Data1 ∧
    (extractFmt w).bitsPerSample = w.wValidBitsPerSample ∧
    (extractFmt w).sampleRate = w.Format.nSamplesPerSec ∧
    (extractFmt w).channels = w.Format.nChannels ∧
    resolvedFmt e = extractFmt e.mixFmt ∧
    (resolvedFmt e).formatTag = e.mixFmt.SubFormat.Data1 ∧
    (resolvedFmt e).bitsPerSample = e.mixFmt.wValidBitsPerSample ∧
    (extractFmt fallbackFmt).formatTag = fallbackFmt.SubFormat.Data1 ∧
    (extractFmt fallbackFmt).formatTag = 3 ∧
    (extractFmt fallbackFmt).bitsPerSample = 32 := by
  have hnm : ¬ e.hrMix < 0 := not_lt.mpr he
  have hres : resolvedFmt e = extractFmt e.mixFmt := by
    simp [resolvedFmt, resolvedWave, hnm]
  refine ⟨?_, ?_, ?_, ?_, hres, ?_, ?_, by decide, by decide, by decide⟩
  · simp [extractFmt, hw]
  · simp [extractFmt, hw]
  · simp [extractFmt, hw]
  · simp [extractFmt, hw]
  · rw [hres]
    simp [extractFmt, hext]
  · rw [hres]
    simp [extractFmt, hext]

/-- An extensible integer-PCM mix format: container says 32 bits, nested
fields say PCM (GUID Data1 = 1) with 24 valid bits. -/
def extFmt : WAVEFORMATEXTENSIBLE :=
  { Format :=
      { wFormatTag := 65534, nChannels := 2, nSamplesPerSec := 44100,
        nAvgBytesPerSec := 352800, nBlockAlign := 8, wBitsPerSample := 32, cbSize := 22 },
    wValidBitsPerSample := 24, dwChannelMask := 3,
    SubFormat := { Data1 := 1, Data2 := 0, Data3 := 16,
                   Data4 := [128, 0, 0, 170, 0, 56, 155, 113] } }

/-- Run whose mix-format query succeeds with the extensible PCM format. -/
def e7demo : Env := { okEnv with mixFmt := extFmt }

/-- Witness for C7 at the extensible PCM format: the header would report
tag 1 (integer PCM) and 24 valid bits, not the container's 32. -/
theorem C7_witness :
    (extractFmt extFmt).formatTag = 1 ∧
    (extractFmt extFmt).bitsPerSample = 24 ∧
    resolvedFmt e7demo = extractFmt e7demo.mixFmt := by
  have h := C7_extensible_unwrap extFmt e7demo rfl (by decide) rfl
  exact ⟨h.1, h.2.1, h.2.2.2.2.1⟩

/-- C8: the process exits 0 exactly when every setup stage through `Start`
succeeded and the capture loop then terminated via the Shutdown Flag; every
setup failure exits 1; and when activation fails nothing at all has been
written to the data channel. -/
theorem C8_exit_codes (e : Env) :
    ((wmain e).exitCode = some 0 ↔
      startedOk e ∧ (captureLoop (frameSize e) 8192 e.cycles true).2 = false) ∧
    (¬ startedOk e → (wmain e).exitCode = some 1) ∧
    ((e.hrActivate < 0 ∨ e.gotActivated = false) → (wmain e).events = []) := by
  refine ⟨⟨?_, ?_⟩, ?_, (wmain_shape e).2.1⟩
  · intro h
    rcases (wmain_shape e).2.2 with ⟨-, hc, -⟩ | ⟨-, -, hc, -⟩ | ⟨hok, hf, -, -⟩
    · rw [hc] at h
      exact absurd h (by simp)
    · rw [hc] at h
      exact absurd h (by simp)
    · exact ⟨hok, hf⟩
  · rintro ⟨hok, hf⟩
    rcases (wmain_shape e).2.2 with ⟨hns, -, -⟩ | ⟨-, ht, -, -⟩ | ⟨-, -, hc, -⟩
    · exact absurd hok hns
    · rw [ht] at hf
      exact Bool.noConfusion hf
    · exact hc
  · intro hn
    rcases (wmain_shape e).2.2 with ⟨-, hc, -⟩ | ⟨hok, -, -, -⟩ | ⟨hok, -, -, -⟩
    · exact hc
    · exact absurd hok hn
    · exact absurd hok hn

/-- Run in which activation completes but yields no endpoint object. -/
def e8demo : Env := { okEnv with gotActivated := false }

/-- Witness for C8 at `e8demo`: activation failure means exit code 1 and an
untouched data channel. -/
theorem C8_witness :
    (wmain e8demo).exitCode = some 1 ∧ (wmain e8demo).events = [] := by
  have h := C8_exit_codes e8demo
  exact ⟨h.2.1 (by decide), h.2.2 (Or.inr rfl)⟩

/-- C9: over any run's full event trace, `GetBuffer` acquisitions and
`ReleaseBuffer` calls alternate strictly — every successfully acquired
buffer is released exactly once before the next acquisition, a release
never occurs without an outstanding acquisition (this covers the zero-frame
early exit and both write-failure paths), and no buffer remains unreleased
at the end. -/
theorem C9_release_balance (e : Env) : scanAcqRel (wmain e).events 0 = some 0 := by
  have hpre : scanAcqRel (preLoopEvents e) 0 = some 0 := by
    simp [preLoopEvents, scanAcqRel]
  rcases (wmain_shape e).2.2 with ⟨-, -, hev⟩ | ⟨-, -, -, hev⟩ | ⟨-, -, -, hev⟩
  · rcases hev with hev | hev | hev | hev <;> rw [hev] <;>
      simp [scanAcqRel, preLoopEvents]
  · rw [hev, scanAcqRel_append, hpre]
    simpa using captureLoop_scan (frameSize e) 8192 e.cycles true
  · rw [hev, scanAcqRel_append, scanAcqRel_append, hpre]
    simp [captureLoop_scan, scanAcqRel]

/-- A packet acquired with zero frames (released, then the drain stops). -/
def pZero : Packet :=
  { hr := 0, frames := 0, silent := false, data := [], wres := fun _ => 1 }

/-- Run with a silent packet, a zero-frame packet and a failing writer in
separate cycles. -/
def e9demo : Env :=
  { okEnv with cycles :=
      [{ ctrl := false, signaled := true, packets := [pSil, pZero] },
       { ctrl := false, signaled := true, packets := [pFail, pOk] }] }

/-- Witness for C9 at the mixed run `e9demo`. -/
theorem C9_witness : scanAcqRel (wmain e9demo).events 0 = some 0 :=
  C9_release_balance e9demo

theorem wtoi_of_no_digits (s : List Char) (hs : hasLeadingNumber s = false) :
    wtoi s = 0 := by
  cases hsp : skipSpaces s with
  | nil => simp [wtoi, hsp]
  | cons c cs =>
    simp only [hasLeadingNumber, hsp] at hs
    simp only [wtoi, hsp]
    by_cases hsign : c = '-' ∨ c = '+'
    · rw [if_pos hsign] at hs
      cases cs with
      | nil =>
        rcases hsign with h | h
        · subst h
          simp [digitsAcc]
        · subst h
          simp [digitsAcc]
      | cons d ds =>
        have hd : isDigit d = false := hs
        rcases hsign with h | h
        · subst h
          simp [digitsAcc, hd]
        · subst h
          simp [digitsAcc, hd]
    · rw [if_neg hsign] at hs
      have hc1 : ¬ c = '-' := fun hh => hsign (Or.inl hh)
      have hc2 : ¬ c = '+' := fun hh => hsign (Or.inr hh)
      rw [if_neg hc1, if_neg hc2]
      simp [digitsAcc, hs]

/-- C10: the argument is converted with `_wtoi`, which validates nothing —
any present argument without leading digits converts to 0, so the excluded
process id becomes 0; the argument's content never influences the run at
all (activation proceeds regardless), and the usage-error path (usage
message, exit 1, nothing written) is taken exactly when the argument is
missing. -/
theorem C10_arg_parsing (e : Env) (t s : List Char) (h2 : 2 ≤ e.argc)
    (hs : hasLeadingNumber s = false) :
    wtoi s = 0 ∧
    (hasLeadingNumber e.arg1 = false → excludePid e = 0) ∧
    (wmain e).usageMsg = false ∧
    wmain e = wmain { e with arg1 := t } ∧
    (∀ e2 : Env, e2.argc < 2 → wmain e2 = ⟨some 1, [], true⟩) := by
  refine ⟨wtoi_of_no_digits s hs, ?_, ?_, ?_, ?_⟩
  · intro ha
    rw [excludePid, wtoi_of_no_digits e.arg1 ha]
    rfl
  · have hiff := (wmain_shape e).1
    cases hu : (wmain e).usageMsg
    · rfl
    · exact absurd (hiff.mp hu) (by omega)
  · cases e
    rfl
  · intro e2 h
    simp only [wmain, if_pos h]

/-- Witness for C10: a non-numeric argument converts to 0 and a two-argument
run skips the usage path. -/
theorem C10_witness :
    wtoi ['a', 'b', 'c'] = 0 ∧ (wmain okEnv).usageMsg = false := by
  have h := C10_arg_parsing okEnv ['x'] ['a', 'b', 'c'] (by decide) (by decide)
  exact ⟨h.1, h.2.2.1⟩

end AudioCapture
